import Mathlib

/-!
Verification of the conversation-persistence core of the Phoenix AI chat
application (src/a.py). The application state lives in the Streamlit session
state: a dict `conversations` mapping conversation names to ordered message
lists, a nullable `current_chat` pointer, and the selected `groq_model`.
Persistence is a shelve database holding a single entry under the key
"conversations". Python dicts preserve insertion order, so `conversations`
is embedded as an association list; dict assignment replaces the value of an
existing key in place and appends a fresh key at the end, dict `del` removes
the single entry, and `next(iter(d))` is the first key in insertion order.
A Python `KeyError` (raised by `dict.pop` or subscripting a missing key) is
embedded as `none` in an `Option` result.
-/

set_option autoImplicit false

namespace PhoenixAI

/-- A chat message: a `{"role": ..., "content": ...}` dict in the source. -/
structure Message where
  role : String
  content : String
deriving DecidableEq, Repr

/-- The `conversations` dict: conversation name to ordered message list,
in insertion order. -/
abbrev Conversations := List (String × List Message)

/-- The application state: the Streamlit session-state fields used by the
store together with the persisted shelve entry. `store` is the value held
under the key "conversations" in the shelve database (`none` when that key
is absent). -/
structure World where
  groq_model : String
  conversations : Conversations
  current_chat : Option String
  store : Option Conversations
deriving DecidableEq, Repr

/-- Dict membership / subscript: the value stored under key `k`, following
insertion order (keys are unique in a dict, so at most one entry matches). -/
def findVal (k : String) : Conversations → Option (List Message)
  | [] => none
  | (k2, v) :: t => if k2 = k then some v else findVal k t

/-- Python dict assignment `d[k] = v`: replaces the value of an existing key
in place, appends a fresh key at the end. -/
def dictInsert (k : String) (v : List Message) : Conversations → Conversations
  | [] => [(k, v)]
  | (k2, v2) :: t => if k2 = k then (k, v) :: t else (k2, v2) :: dictInsert k v t

/-- Python `d.pop(k)`: the removed value and the remaining dict, or `none`
(KeyError) when the key is absent. -/
def popKey (k : String) : Conversations → Option (List Message × Conversations)
  | [] => none
  | (k2, v) :: t =>
    if k2 = k then some (v, t)
    else (popKey k t).map (fun pr => (pr.fst, (k2, v) :: pr.snd))

/-- Python `del d[k]` on a present key: drops the entry, keeping order. -/
def removeKey (k : String) : Conversations → Conversations
  | [] => []
  | (k2, v) :: t => if k2 = k then t else (k2, v) :: removeKey k t

/-- `next(iter(d))` guarded by non-emptiness: the first key in insertion
order, or `none` when the dict is empty. -/
def firstKey : Conversations → Option String
  | [] => none
  | (k, _) :: _ => some k

/-- Python truthiness test `not current_chat`: true for `None` and for the
empty string. -/
def pyFalsy : Option String → Bool
  | none => true
  | some s => decide (s = "")

/-- `PhoenixAI.save_chat_history` (src/a.py lines 208-215): writes the whole
`conversations` dict under the "conversations" key of the shelve store. -/
def save_chat_history (w : World) : World :=
  { w with store := some w.conversations }

/-- `PhoenixAI.load_chat_history`, success path (src/a.py lines 194-202):
reads `db.get("conversations", {})` into the session state, then sets the
current chat to the first key when the pointer is falsy and conversations
exist. -/
def load_chat_history (w : World) : World :=
  let convs := w.store.getD []
  if pyFalsy w.current_chat then
    match firstKey convs with
    | some k => { w with conversations := convs, current_chat := some k }
    | none => { w with conversations := convs }
  else { w with conversations := convs }

/-- `PhoenixAI.load_chat_history`, exception path (src/a.py lines 203-206):
on a load failure the conversations dict is reset to `{}` and the current
pointer is left untouched. -/
def load_chat_history_fail (w : World) : World :=
  { w with conversations := [] }

/-- `PhoenixAI.create_new_chat` (src/a.py lines 217-223): names the chat
"Chat {count+1}", assigns an empty list under that name (overwriting any
existing conversation of that name), points `current_chat` at it, saves,
and returns the name. -/
def create_new_chat (w : World) : World × String :=
  let new_chat_name := "Chat " ++ toString (w.conversations.length + 1)
  let w1 := { w with conversations := dictInsert new_chat_name [] w.conversations,
                     current_chat := some new_chat_name }
  (save_chat_history w1, new_chat_name)

/-- `PhoenixAI.rename_chat` (src/a.py lines 225-232): when `new_name` is
truthy, differs from `old_name` and is not an existing key, pops the old
entry (KeyError — embedded as `none` — when `old_name` is absent), stores
its messages under `new_name`, points `current_chat` at `new_name`, saves
and returns `True`; otherwise returns `False` without mutating. -/
def rename_chat (w : World) (old_name new_name : String) : Option (World × Bool) :=
  if new_name ≠ "" ∧ new_name ≠ old_name ∧ findVal new_name w.conversations = none then
    match popKey old_name w.conversations with
    | none => none
    | some (msgs, rest) =>
      let w1 := { w with conversations := dictInsert new_name msgs rest,
                         current_chat := some new_name }
      some (save_chat_history w1, true)
  else some (w, false)

/-- `PhoenixAI.delete_chat` (src/a.py lines 234-242): deletes a present key,
repoints `current_chat` to the first remaining key (or `None`) when it was
the deleted one, saves and returns `True`; returns `False` when absent. -/
def delete_chat (w : World) (chat_name : String) : World × Bool :=
  if (findVal chat_name w.conversations).isSome then
    let convs := removeKey chat_name w.conversations
    let cur := if w.current_chat = some chat_name then firstKey convs else w.current_chat
    (save_chat_history { w with conversations := convs, current_chat := cur }, true)
  else (w, false)

/-- The stub reply of `generate_response` when the Groq client is absent
(src/a.py line 247). -/
def clientMissingMsg : String := "API client not initialized. Please check your API key."

/-- The synthesized reply of `generate_response` when the API call raises
(src/a.py line 260). -/
def apiErrorMsg (e : String) : String := "Sorry, I encountered an error: " ++ e

/-- The inference API boundary: given a model identifier and the ordered
message list, either generated content or the text of a raised exception. -/
abbrev Api := String → List Message → Except String String

/-- `PhoenixAI.generate_response` (src/a.py lines 244-260): the stub text
when no client is configured; otherwise the API result, with any raised
error converted to a synthesized reply string. -/
def generate_response (client : Bool) (api : Api) (model : String)
    (messages : List Message) : String :=
  if !client then clientMissingMsg
  else match api model messages with
    | Except.ok content => content
    | Except.error e => apiErrorMsg e

/-- The chat-input handler of `PhoenixAI.render_main_interface`
(src/a.py lines 336-357), the spec's `sendMessage`: creates a chat when the
current pointer is falsy, appends the user message to the current
conversation (KeyError — embedded as `none` — when the pointer names a
missing key), generates a reply, appends it as the assistant message
unconditionally, and saves. Returns the updated world and the reply text. -/
def sendMessage (client : Bool) (api : Api) (w : World) (prompt : String) :
    Option (World × String) :=
  let w1 := if pyFalsy w.current_chat then (create_new_chat w).fst else w
  w1.current_chat.bind fun cur =>
    (findVal cur w1.conversations).bind fun messages =>
      let messages1 := messages ++ [⟨"user", prompt⟩]
      let w2 := { w1 with conversations := dictInsert cur messages1 w1.conversations }
      let full_response := generate_response client api w2.groq_model messages1
      let messages2 := messages1 ++ [⟨"assistant", full_response⟩]
      let w3 := { w2 with conversations := dictInsert cur messages2 w2.conversations }
      some (save_chat_history w3, full_response)

/-- The invariant of the claim set: a non-null current pointer names a key
present in the conversations dict. -/
def current_valid (w : World) : Bool :=
  match w.current_chat with
  | none => true
  | some c => (findVal c w.conversations).isSome

/-! Helper lemmas about the dict embedding. -/

theorem findVal_dictInsert_self (k : String) (v : List Message) (c : Conversations) :
    findVal k (dictInsert k v c) = some v := by
  induction c with
  | nil => simp [dictInsert, findVal]
  | cons p t ih =>
    obtain ⟨k2, v2⟩ := p
    by_cases h : k2 = k <;> simp [dictInsert, findVal, h, ih]

theorem findVal_dictInsert_ne (k k2 : String) (v : List Message) (c : Conversations)
    (hk : k2 ≠ k) : findVal k2 (dictInsert k v c) = findVal k2 c := by
  induction c with
  | nil => simp [dictInsert, findVal, Ne.symm hk]
  | cons p t ih =>
    obtain ⟨k3, v3⟩ := p
    by_cases h : k3 = k
    · subst h
      simp [dictInsert, findVal, Ne.symm hk]
    · by_cases h2 : k3 = k2 <;> simp [dictInsert, findVal, h, h2, hk, ih]

theorem length_dictInsert_fresh (k : String) (v : List Message) (c : Conversations)
    (h : findVal k c = none) : (dictInsert k v c).length = c.length + 1 := by
  induction c with
  | nil => simp [dictInsert]
  | cons p t ih =>
    obtain ⟨k2, v2⟩ := p
    by_cases hk : k2 = k
    · simp [findVal, hk] at h
    · simp only [findVal, if_neg hk] at h
      simp [dictInsert, hk, ih h]

theorem popKey_findVal (k : String) (v : List Message) (c rest : Conversations)
    (h : popKey k c = some (v, rest)) : findVal k c = some v := by
  induction c generalizing v rest with
  | nil => simp [popKey] at h
  | cons p t ih =>
    obtain ⟨k2, v2⟩ := p
    by_cases hk : k2 = k
    · simp only [popKey, if_pos hk, Option.some.injEq, Prod.mk.injEq] at h
      simp only [findVal, if_pos hk, h.1]
    · simp only [popKey, if_neg hk] at h
      simp only [findVal, if_neg hk]
      cases hp : popKey k t with
      | none => rw [hp] at h; simp at h
      | some pr =>
        obtain ⟨v3, rest3⟩ := pr
        rw [hp] at h
        simp only [Option.map_some', Option.some.injEq, Prod.mk.injEq] at h
        rw [← h.1]
        exact ih v3 rest3 hp

theorem findVal_removeKey_ne (k k2 : String) (c : Conversations) (hk : k2 ≠ k) :
    findVal k2 (removeKey k c) = findVal k2 c := by
  induction c with
  | nil => simp [removeKey]
  | cons p t ih =>
    obtain ⟨k3, v3⟩ := p
    by_cases h : k3 = k
    · subst h
      simp [removeKey, findVal, Ne.symm hk]
    · by_cases h2 : k3 = k2 <;> simp [removeKey, findVal, h, h2, hk, ih]

theorem findVal_eq_none_of_not_mem (k : String) (c : Conversations)
    (h : k ∉ c.map Prod.fst) : findVal k c = none := by
  induction c with
  | nil => simp [findVal]
  | cons p t ih =>
    obtain ⟨k2, v2⟩ := p
    simp only [List.map_cons, List.mem_cons] at h
    push_neg at h
    simp [findVal, Ne.symm h.1, ih h.2]

theorem findVal_removeKey_self (k : String) (c : Conversations)
    (hnd : (c.map Prod.fst).Nodup) : findVal k (removeKey k c) = none := by
  induction c with
  | nil => simp [removeKey, findVal]
  | cons p t ih =>
    obtain ⟨k2, v2⟩ := p
    simp only [List.map_cons, List.nodup_cons] at hnd
    by_cases h : k2 = k
    · subst h
      simp only [removeKey, if_pos rfl]
      exact findVal_eq_none_of_not_mem k2 t hnd.1
    · simp [removeKey, findVal, h, ih hnd.2]

/-- The reply computed by the `sendMessage` handler once the user message has
been appended to `msgs`. -/
def sendReply (client : Bool) (api : Api) (w : World) (msgs : List Message)
    (prompt : String) : String :=
  generate_response client api w.groq_model (msgs ++ [⟨"user", prompt⟩])

/-- The world produced by the `sendMessage` handler on a selected, present
conversation: user message appended, assistant reply appended, saved. -/
def sendPost (client : Bool) (api : Api) (w : World) (cur : String)
    (msgs : List Message) (prompt : String) : World :=
  save_chat_history
    { w with conversations := (dictInsert cur
        (msgs ++ [⟨"user", prompt⟩, ⟨"assistant", sendReply client api w msgs prompt⟩])
        (dictInsert cur (msgs ++ [⟨"user", prompt⟩]) w.conversations)) }

theorem sendMessage_eq (client : Bool) (api : Api) (w : World) (cur : String)
    (msgs : List Message) (prompt : String)
    (hcur : w.current_chat = some cur) (hne : cur ≠ "")
    (hmsgs : findVal cur w.conversations = some msgs) :
    sendMessage client api w prompt =
      some (sendPost client api w cur msgs prompt, sendReply client api w msgs prompt) := by
  have hfalsy : pyFalsy w.current_chat = false := by
    rw [hcur]
    simp [pyFalsy, hne]
  unfold sendMessage
  rw [hfalsy]
  simp only [Bool.false_eq_true, if_false, hcur, Option.some_bind, hmsgs]
  simp [sendPost, sendReply, save_chat_history, List.append_assoc, hcur]

theorem sendMessage_degraded_reply (api : Api) (w ws : World) (prompt r : String)
    (hs : sendMessage false api w prompt = some (ws, r)) : r = clientMissingMsg := by
  unfold sendMessage at hs
  by_cases hf : pyFalsy w.current_chat
  · rw [if_pos hf] at hs
    simp only [create_new_chat, save_chat_history, Option.some_bind,
      findVal_dictInsert_self] at hs
    simp only [Option.some_bind, Option.some.injEq, Prod.mk.injEq] at hs
    rw [← hs.2]
    rfl
  · rw [if_neg hf] at hs
    dsimp only at hs
    cases hc : w.current_chat with
    | none => rw [hc] at hs; simp at hs
    | some cur =>
      rw [hc] at hs
      simp only [Option.some_bind] at hs
      cases hm : findVal cur w.conversations with
      | none => rw [hm] at hs; simp at hs
      | some msgs =>
        rw [hm] at hs
        simp only [Option.some_bind, Option.some.injEq, Prod.mk.injEq] at hs
        rw [← hs.2]
        rfl

theorem firstKey_findVal (k : String) (c : Conversations) (h : firstKey c = some k) :
    (findVal k c).isSome = true := by
  cases c with
  | nil => simp [firstKey] at h
  | cons p t =>
    obtain ⟨k2, v2⟩ := p
    simp only [firstKey] at h
    injection h with h2
    simp [findVal, h2]

theorem create_current_valid (w : World) :
    current_valid (create_new_chat w).fst = true := by
  simp [create_new_chat, save_chat_history, current_valid, findVal_dictInsert_self]

theorem rename_current_valid (w wr : World) (old_name new_name : String) (b : Bool)
    (hw : current_valid w = true) (hr : rename_chat w old_name new_name = some (wr, b)) :
    current_valid wr = true := by
  unfold rename_chat at hr
  split at hr
  · cases hp : popKey old_name w.conversations with
    | none => rw [hp] at hr; simp at hr
    | some pr =>
      obtain ⟨msgs, rest⟩ := pr
      rw [hp] at hr
      simp only [Option.some.injEq, Prod.mk.injEq] at hr
      rw [← hr.1]
      simp [current_valid, save_chat_history, findVal_dictInsert_self]
  · simp only [Option.some.injEq, Prod.mk.injEq] at hr
    rw [← hr.1]
    exact hw

theorem delete_current_valid (w : World) (chat_name : String)
    (hw : current_valid w = true) :
    current_valid (delete_chat w chat_name).fst = true := by
  unfold delete_chat
  split
  · dsimp only
    by_cases hc : w.current_chat = some chat_name
    · rw [if_pos hc]
      cases hf : firstKey (removeKey chat_name w.conversations) with
      | none => simp [current_valid, save_chat_history, hf]
      | some k => simp [current_valid, save_chat_history, hf, firstKey_findVal _ _ hf]
    · rw [if_neg hc]
      cases hcur : w.current_chat with
      | none => simp [current_valid, save_chat_history, hcur]
      | some c =>
        have hcn : c ≠ chat_name := by
          intro he
          exact hc (hcur.trans (congrArg some he))
        unfold current_valid at hw
        rw [hcur] at hw
        simp only [] at hw
        simp [current_valid, save_chat_history, hcur,
          findVal_removeKey_ne chat_name c w.conversations hcn, hw]
  · exact hw

theorem sendMessage_current_valid (client : Bool) (api : Api) (w ws : World)
    (prompt r : String) (hs : sendMessage client api w prompt = some (ws, r)) :
    current_valid ws = true := by
  unfold sendMessage at hs
  by_cases hf : pyFalsy w.current_chat
  · rw [if_pos hf] at hs
    simp only [create_new_chat, save_chat_history, Option.some_bind,
      findVal_dictInsert_self] at hs
    simp only [Option.some_bind, Option.some.injEq, Prod.mk.injEq] at hs
    rw [← hs.1]
    simp [current_valid, save_chat_history, findVal_dictInsert_self]
  · rw [if_neg hf] at hs
    dsimp only at hs
    cases hc : w.current_chat with
    | none => rw [hc] at hs; simp at hs
    | some cur =>
      rw [hc] at hs
      simp only [Option.some_bind] at hs
      cases hm : findVal cur w.conversations with
      | none => rw [hm] at hs; simp at hs
      | some msgs =>
        rw [hm] at hs
        simp only [Option.some_bind, Option.some.injEq, Prod.mk.injEq] at hs
        rw [← hs.1]
        simp [current_valid, save_chat_history, hc, findVal_dictInsert_self]

theorem load_none_current_valid (w : World) (h : w.current_chat = none) :
    current_valid (load_chat_history w) = true := by
  unfold load_chat_history
  rw [h]
  simp only [pyFalsy, if_true]
  cases hf : firstKey (w.store.getD []) with
  | none => simp [current_valid, h]
  | some k => simp [current_valid, firstKey_findVal _ _ hf]

/-! The claims. -/

/-- C7: persisting a conversation set with `save_chat_history` and reading it
back with `load_chat_history` yields the same mapping from conversation names
to ordered message lists. -/
theorem C7_save_load_round_trip (w : World) :
    (load_chat_history (save_chat_history w)).conversations = w.conversations := by
  unfold load_chat_history save_chat_history
  dsimp only
  split
  · split <;> rfl
  · rfl

/-- C10: on a successful load with a null current pointer and a non-empty
loaded set, the current pointer is set to the first key of the loaded set in
iteration order, so it is not left null. -/
theorem C10_load_sets_first_key (w : World) (k : String) (ms : List Message)
    (rest : Conversations) (hcur : w.current_chat = none)
    (hstore : w.store.getD [] = (k, ms) :: rest) :
    (load_chat_history w).current_chat = some k ∧
    (load_chat_history w).conversations = (k, ms) :: rest := by
  unfold load_chat_history
  rw [hstore, hcur]
  simp [pyFalsy, firstKey]

/-- Witness for C10 at a concrete startup state: pointer null, one stored
conversation named "A". -/
theorem C10_load_sets_first_key_witness :
    (load_chat_history ⟨"m", [], none, some [("A", [⟨"user", "x"⟩])]⟩).current_chat = some "A" ∧
    (load_chat_history ⟨"m", [], none, some [("A", [⟨"user", "x"⟩])]⟩).conversations =
      ("A", [⟨"user", "x"⟩]) :: [] :=
  C10_load_sets_first_key ⟨"m", [], none, some [("A", [⟨"user", "x"⟩])]⟩ "A"
    [⟨"user", "x"⟩] [] rfl rfl

/-- C3 counterexample: with conversations `{"B": []}`, the old name "A" is
absent while the conditions on the new name "C" hold, so `rename_chat`
raises `KeyError` (embedded as `none`) instead of returning `false` without
raising, refuting the claim at this input. -/
theorem C3_counterexample :
    rename_chat ⟨"m", [("B", [])], some "B", none⟩ "A" "C" = none ∧
    rename_chat ⟨"m", [("B", [])], some "B", none⟩ "A" "C" ≠
      some (⟨"m", [("B", [])], some "B", none⟩, false) := by
  constructor
  · decide
  · decide

/-- C3 amended: whenever the new name is empty, equals the old name, or
collides with an existing conversation, `rename_chat` returns `false`
without raising and without mutating the conversation set, the current
pointer, or the persisted store. (When the old name is absent but those
conditions on the new name hold, the code instead raises `KeyError`.) -/
theorem C3_rename_rejects_without_mutation (w : World) (old_name new_name : String)
    (h : new_name = "" ∨ new_name = old_name ∨
      (findVal new_name w.conversations).isSome = true) :
    rename_chat w old_name new_name = some (w, false) := by
  unfold rename_chat
  rw [if_neg]
  intro hcond
  obtain ⟨h1, h2, h3⟩ := hcond
  rcases h with h | h | h
  · exact h1 h
  · exact h2 h
  · rw [h3] at h
    simp at h

/-- Witness for the amended C3: the spec's own example, renaming "A" onto
the existing name "B" returns `false` and leaves the whole state intact. -/
theorem C3_rename_rejects_without_mutation_witness :
    rename_chat ⟨"m", [("A", [⟨"user", "x"⟩]), ("B", [])], some "A", none⟩ "A" "B" =
      some (⟨"m", [("A", [⟨"user", "x"⟩]), ("B", [])], some "A", none⟩, false) :=
  C3_rename_rejects_without_mutation
    ⟨"m", [("A", [⟨"user", "x"⟩]), ("B", [])], some "A", none⟩ "A" "B" (by decide)

/-- C4 counterexample: renaming "A" to "C" succeeds while the current
pointer references "B" (a conversation other than the renamed one); the
claim says the pointer is then left unchanged, but the code repoints it to
"C". -/
theorem C4_counterexample :
    (rename_chat ⟨"m", [("A", []), ("B", [])], some "B", none⟩ "A" "C").map
      (fun p => p.snd) = some true ∧
    (rename_chat ⟨"m", [("A", []), ("B", [])], some "B", none⟩ "A" "C").map
      (fun p => p.fst.current_chat) = some (some "C") ∧
    (rename_chat ⟨"m", [("A", []), ("B", [])], some "B", none⟩ "A" "C").map
      (fun p => p.fst.current_chat) ≠ some (some "B") := by
  refine ⟨by decide, by decide, by decide⟩

/-- C4 amended: on every successful rename the conversation's messages move
wholesale (order preserved) under the new key, the state is persisted, and
the current pointer is set to the new name unconditionally — even when it
referenced a conversation other than the renamed one. -/
theorem C4_rename_moves_messages (w wr : World) (old_name new_name : String)
    (h : rename_chat w old_name new_name = some (wr, true)) :
    findVal new_name wr.conversations = findVal old_name w.conversations ∧
    wr.current_chat = some new_name ∧
    wr.store = some wr.conversations := by
  unfold rename_chat at h
  split at h
  · cases hp : popKey old_name w.conversations with
    | none => rw [hp] at h; simp at h
    | some pr =>
      obtain ⟨msgs, rest⟩ := pr
      rw [hp] at h
      simp only [Option.some.injEq, Prod.mk.injEq] at h
      rw [← h.1]
      refine ⟨?_, rfl, rfl⟩
      rw [popKey_findVal old_name msgs w.conversations rest hp]
      simp [save_chat_history, findVal_dictInsert_self]
  · simp at h

/-- Witness for the amended C4 at a concrete successful rename. -/
theorem C4_rename_moves_messages_witness :
    findVal "C" (⟨"m", [("B", []), ("C", [⟨"user", "x"⟩])], some "C",
        some [("B", []), ("C", [⟨"user", "x"⟩])]⟩ : World).conversations =
      findVal "A" ([("A", [⟨"user", "x"⟩]), ("B", [])] : Conversations) ∧
    (⟨"m", [("B", []), ("C", [⟨"user", "x"⟩])], some "C",
        some [("B", []), ("C", [⟨"user", "x"⟩])]⟩ : World).current_chat = some "C" ∧
    (⟨"m", [("B", []), ("C", [⟨"user", "x"⟩])], some "C",
        some [("B", []), ("C", [⟨"user", "x"⟩])]⟩ : World).store =
      some (⟨"m", [("B", []), ("C", [⟨"user", "x"⟩])], some "C",
        some [("B", []), ("C", [⟨"user", "x"⟩])]⟩ : World).conversations :=
  C4_rename_moves_messages ⟨"m", [("A", [⟨"user", "x"⟩]), ("B", [])], some "B", none⟩
    ⟨"m", [("B", []), ("C", [⟨"user", "x"⟩])], some "C",
      some [("B", []), ("C", [⟨"user", "x"⟩])]⟩ "A" "C" (by decide)

/-- C5: `delete_chat` removes a present conversation and returns `true`
(repointing the current pointer to the first remaining key in iteration
order, or to null, exactly when it referenced the deleted one), and returns
`false` without any mutation when the name is absent; the deleted key is
gone afterwards and every other conversation is untouched. -/
theorem C5_delete_behavior (w : World) (chat_name k : String)
    (hnd : (w.conversations.map Prod.fst).Nodup) (hk : k ≠ chat_name) :
    delete_chat w chat_name =
      (if (findVal chat_name w.conversations).isSome = true then
        (save_chat_history { w with
            conversations := removeKey chat_name w.conversations,
            current_chat := (if w.current_chat = some chat_name
              then firstKey (removeKey chat_name w.conversations) else w.current_chat) }, true)
       else (w, false)) ∧
    findVal chat_name (removeKey chat_name w.conversations) = none ∧
    findVal k (removeKey chat_name w.conversations) = findVal k w.conversations := by
  refine ⟨?_, findVal_removeKey_self chat_name w.conversations hnd,
    findVal_removeKey_ne chat_name k w.conversations hk⟩
  unfold delete_chat
  split <;> rfl

/-- Witness for C5: the spec's two examples. Deleting the current "A" from
`{"A", "B"}` repoints current to "B"; deleting the only conversation "A"
leaves current null. -/
theorem C5_delete_behavior_witness :
    delete_chat ⟨"m", [("A", []), ("B", [])], some "A", none⟩ "A" =
      (⟨"m", [("B", [])], some "B", some [("B", [])]⟩, true) ∧
    delete_chat ⟨"m", [("A", [])], some "A", none⟩ "A" =
      (⟨"m", [], none, some []⟩, true) :=
  ⟨((C5_delete_behavior ⟨"m", [("A", []), ("B", [])], some "A", none⟩ "A" "B"
      (by decide) (by decide)).1).trans (by decide),
   ((C5_delete_behavior ⟨"m", [("A", [])], some "A", none⟩ "A" "B"
      (by decide) (by decide)).1).trans (by decide)⟩

/-- C1 counterexample: with the client absent and "A" selected and empty,
the handler returns the stub reply but DOES append it as an assistant
message and persists it — the conversation afterwards is not just the user
message, and the store holds the assistant turn too, refuting the claim at
this input. -/
theorem C1_counterexample :
    (sendMessage false (fun _ _ => Except.ok "unused")
        ⟨"m", [("A", [])], some "A", none⟩ "hi").map
      (fun p => findVal "A" p.fst.conversations) =
      some (some [⟨"user", "hi"⟩, ⟨"assistant", clientMissingMsg⟩]) ∧
    (sendMessage false (fun _ _ => Except.ok "unused")
        ⟨"m", [("A", [])], some "A", none⟩ "hi").map
      (fun p => findVal "A" p.fst.conversations) ≠ some (some [⟨"user", "hi"⟩]) ∧
    (sendMessage false (fun _ _ => Except.ok "unused")
        ⟨"m", [("A", [])], some "A", none⟩ "hi").map (fun p => p.fst.store) ≠
      some (some [("A", [⟨"user", "hi"⟩])]) := by
  refine ⟨by decide, by decide, by decide⟩

/-- C1 amended: on a failed inference call (client absent, or the API call
raising), `sendMessage` still completes and returns a synthesized error
message string, and that error text IS appended as the assistant message of
the turn and persisted together with the user message. -/
theorem C1_failed_call_appends_error (client : Bool) (api : Api) (w ws : World)
    (cur : String) (msgs : List Message) (prompt e r : String)
    (hcur : w.current_chat = some cur) (hne : cur ≠ "")
    (hmsgs : findVal cur w.conversations = some msgs)
    (hfail : client = false ∨
      api w.groq_model (msgs ++ [⟨"user", prompt⟩]) = Except.error e)
    (hs : sendMessage client api w prompt = some (ws, r)) :
    r = (if client then apiErrorMsg e else clientMissingMsg) ∧
    findVal cur ws.conversations = some (msgs ++ [⟨"user", prompt⟩, ⟨"assistant", r⟩]) ∧
    ws.current_chat = some cur ∧
    ws.store = some ws.conversations ∧
    (sendMessage client api w prompt).isSome = true := by
  have heq := sendMessage_eq client api w cur msgs prompt hcur hne hmsgs
  rw [heq] at hs
  simp only [Option.some.injEq, Prod.mk.injEq] at hs
  obtain ⟨hws, hr⟩ := hs
  have hrval : r = (if client then apiErrorMsg e else clientMissingMsg) := by
    rw [← hr]
    cases client with
    | false => rfl
    | true =>
      rcases hfail with hf | hf
      · exact Bool.noConfusion hf
      · simp [sendReply, generate_response, hf]
  refine ⟨hrval, ?_, ?_, ?_, ?_⟩
  · rw [← hws, ← hr]
    simp [sendPost, save_chat_history, findVal_dictInsert_self]
  · rw [← hws]
    simp [sendPost, save_chat_history, hcur]
  · rw [← hws]
    simp [sendPost, save_chat_history]
  · rw [heq]
    rfl

/-- Witness for the amended C1 at a concrete degraded-mode call. -/
theorem C1_failed_call_appends_error_witness :
    (clientMissingMsg : String) = (if false then apiErrorMsg "e" else clientMissingMsg) ∧
    findVal "A" (⟨"m", [("A", [⟨"user", "hi"⟩, ⟨"assistant", clientMissingMsg⟩])], some "A",
        some [("A", [⟨"user", "hi"⟩, ⟨"assistant", clientMissingMsg⟩])]⟩ : World).conversations =
      some ([] ++ [⟨"user", "hi"⟩, ⟨"assistant", clientMissingMsg⟩]) ∧
    (⟨"m", [("A", [⟨"user", "hi"⟩, ⟨"assistant", clientMissingMsg⟩])], some "A",
        some [("A", [⟨"user", "hi"⟩, ⟨"assistant", clientMissingMsg⟩])]⟩ : World).current_chat =
      some "A" ∧
    (⟨"m", [("A", [⟨"user", "hi"⟩, ⟨"assistant", clientMissingMsg⟩])], some "A",
        some [("A", [⟨"user", "hi"⟩, ⟨"assistant", clientMissingMsg⟩])]⟩ : World).store =
      some (⟨"m", [("A", [⟨"user", "hi"⟩, ⟨"assistant", clientMissingMsg⟩])], some "A",
        some [("A", [⟨"user", "hi"⟩, ⟨"assistant", clientMissingMsg⟩])]⟩ : World).conversations ∧
    (sendMessage false (fun _ _ => Except.ok "unused")
      ⟨"m", [("A", [])], some "A", none⟩ "hi").isSome = true :=
  C1_failed_call_appends_error false (fun _ _ => Except.ok "unused")
    ⟨"m", [("A", [])], some "A", none⟩
    ⟨"m", [("A", [⟨"user", "hi"⟩, ⟨"assistant", clientMissingMsg⟩])], some "A",
      some [("A", [⟨"user", "hi"⟩, ⟨"assistant", clientMissingMsg⟩])]⟩
    "A" [] "hi" "e" clientMissingMsg rfl (by decide) rfl (Or.inl rfl) (by decide)

/-- C6: a successful `sendMessage "hi"` on an empty selected conversation
leaves that conversation's message list exactly
`[{user, "hi"}, {assistant, reply}]`, in that order, and returns the
reply. -/
theorem C6_message_ordering (api : Api) (w ws : World) (cur reply r : String)
    (hcur : w.current_chat = some cur) (hne : cur ≠ "")
    (hmsgs : findVal cur w.conversations = some [])
    (hapi : api w.groq_model [⟨"user", "hi"⟩] = Except.ok reply)
    (hs : sendMessage true api w "hi" = some (ws, r)) :
    r = reply ∧
    findVal cur ws.conversations = some [⟨"user", "hi"⟩, ⟨"assistant", reply⟩] := by
  have heq := sendMessage_eq true api w cur [] "hi" hcur hne hmsgs
  rw [heq] at hs
  simp only [Option.some.injEq, Prod.mk.injEq] at hs
  obtain ⟨hws, hr⟩ := hs
  have hrv : r = reply := by
    rw [← hr]
    simp [sendReply, generate_response, hapi]
  refine ⟨hrv, ?_⟩
  rw [← hws]
  simp [sendPost, save_chat_history, findVal_dictInsert_self, sendReply,
    generate_response, hapi]

/-- Witness for C6 at a concrete successful call. -/
theorem C6_message_ordering_witness :
    ("yo" : String) = "yo" ∧
    findVal "A" (⟨"m", [("A", [⟨"user", "hi"⟩, ⟨"assistant", "yo"⟩])], some "A",
        some [("A", [⟨"user", "hi"⟩, ⟨"assistant", "yo"⟩])]⟩ : World).conversations =
      some [⟨"user", "hi"⟩, ⟨"assistant", "yo"⟩] :=
  C6_message_ordering (fun _ _ => Except.ok "yo") ⟨"m", [("A", [])], some "A", none⟩
    ⟨"m", [("A", [⟨"user", "hi"⟩, ⟨"assistant", "yo"⟩])], some "A",
      some [("A", [⟨"user", "hi"⟩, ⟨"assistant", "yo"⟩])]⟩
    "A" "yo" "yo" rfl (by decide) rfl rfl (by decide)

/-- C8: in degraded mode (client absent) every completed `sendMessage` call
returns the fixed stub error string, whatever the inference API would have
answered, and `sendMessage "hi"` on an empty selected conversation still
appends the user message "hi" as the first element. -/
theorem C8_degraded_mode (api api2 : Api) (w ws w2 ws2 : World)
    (cur prompt2 r r2 : String)
    (hcur : w.current_chat = some cur) (hne : cur ≠ "")
    (hmsgs : findVal cur w.conversations = some [])
    (hs : sendMessage false api w "hi" = some (ws, r))
    (hs2 : sendMessage false api2 w2 prompt2 = some (ws2, r2)) :
    r = clientMissingMsg ∧
    findVal cur ws.conversations = some [⟨"user", "hi"⟩, ⟨"assistant", clientMissingMsg⟩] ∧
    r2 = clientMissingMsg := by
  refine ⟨sendMessage_degraded_reply api w ws "hi" r hs, ?_,
    sendMessage_degraded_reply api2 w2 ws2 prompt2 r2 hs2⟩
  have heq := sendMessage_eq false api w cur [] "hi" hcur hne hmsgs
  rw [heq] at hs
  simp only [Option.some.injEq, Prod.mk.injEq] at hs
  rw [← hs.1]
  simp [sendPost, save_chat_history, findVal_dictInsert_self, sendReply,
    generate_response, clientMissingMsg]

/-- Witness for C8: a degraded call on the selected empty "A", and a second
degraded call starting with no conversation at all. -/
theorem C8_degraded_mode_witness :
    (clientMissingMsg : String) = clientMissingMsg ∧
    findVal "A" (⟨"m", [("A", [⟨"user", "hi"⟩, ⟨"assistant", clientMissingMsg⟩])], some "A",
        some [("A", [⟨"user", "hi"⟩, ⟨"assistant", clientMissingMsg⟩])]⟩ : World).conversations =
      some [⟨"user", "hi"⟩, ⟨"assistant", clientMissingMsg⟩] ∧
    (clientMissingMsg : String) = clientMissingMsg :=
  C8_degraded_mode (fun _ _ => Except.ok "unused") (fun _ _ => Except.error "down")
    ⟨"m", [("A", [])], some "A", none⟩
    ⟨"m", [("A", [⟨"user", "hi"⟩, ⟨"assistant", clientMissingMsg⟩])], some "A",
      some [("A", [⟨"user", "hi"⟩, ⟨"assistant", clientMissingMsg⟩])]⟩
    ⟨"m", [], none, none⟩
    ⟨"m", [("Chat 1", [⟨"user", "x"⟩, ⟨"assistant", clientMissingMsg⟩])], some "Chat 1",
      some [("Chat 1", [⟨"user", "x"⟩, ⟨"assistant", clientMissingMsg⟩])]⟩
    "A" "x" clientMissingMsg clientMissingMsg rfl (by decide) rfl (by decide) (by decide)

/-- C2 counterexample: with the single conversation `{"Chat 2": [...]}` the
count is 1, so `create_new_chat` generates "Chat 2" again — the dict
assignment overwrites the existing conversation (its messages are lost and
no new conversation is inserted) — and a second call generates "Chat 2"
once more instead of the claimed "Chat 3", leaving one conversation, not
two distinct ones. -/
theorem C2_counterexample :
    (create_new_chat ⟨"m", [("Chat 2", [⟨"user", "x"⟩])], none, none⟩).snd = "Chat 2" ∧
    findVal "Chat 2"
      (create_new_chat ⟨"m", [("Chat 2", [⟨"user", "x"⟩])], none, none⟩).fst.conversations =
      some [] ∧
    (create_new_chat
      (create_new_chat ⟨"m", [("Chat 2", [⟨"user", "x"⟩])], none, none⟩).fst).snd ≠
      "Chat 3" ∧
    (create_new_chat
      (create_new_chat ⟨"m", [("Chat 2", [⟨"user", "x"⟩])], none,
        none⟩).fst).fst.conversations.length = 1 := by
  refine ⟨by decide, by decide, by decide, by decide⟩

/-- C2 amended: provided the generated default names do not collide with
existing conversation names (on a collision the dict assignment overwrites
the existing conversation instead of inserting), `create_new_chat` names
the new chat "Chat N" with N one greater than the current count, inserts it
empty, persists, returns the name, and a second call yields the distinct
name "Chat N+1", leaving both present and the count increased by two. -/
theorem C2_create_default_names (w : World)
    (h1 : findVal ("Chat " ++ toString (w.conversations.length + 1)) w.conversations = none)
    (h2 : findVal ("Chat " ++ toString (w.conversations.length + 2))
        (create_new_chat w).fst.conversations = none) :
    (create_new_chat w).snd = "Chat " ++ toString (w.conversations.length + 1) ∧
    findVal ("Chat " ++ toString (w.conversations.length + 1))
      (create_new_chat w).fst.conversations = some [] ∧
    (create_new_chat w).fst.store = some (create_new_chat w).fst.conversations ∧
    (create_new_chat w).fst.conversations.length = w.conversations.length + 1 ∧
    (create_new_chat (create_new_chat w).fst).snd =
      "Chat " ++ toString (w.conversations.length + 2) ∧
    "Chat " ++ toString (w.conversations.length + 1) ≠
      "Chat " ++ toString (w.conversations.length + 2) ∧
    findVal ("Chat " ++ toString (w.conversations.length + 1))
      (create_new_chat (create_new_chat w).fst).fst.conversations = some [] ∧
    findVal ("Chat " ++ toString (w.conversations.length + 2))
      (create_new_chat (create_new_chat w).fst).fst.conversations = some [] ∧
    (create_new_chat (create_new_chat w).fst).fst.conversations.length =
      w.conversations.length + 2 := by
  have hc1 : (create_new_chat w).fst.conversations =
      dictInsert ("Chat " ++ toString (w.conversations.length + 1)) [] w.conversations := by
    simp [create_new_chat, save_chat_history]
  have hfind1 : findVal ("Chat " ++ toString (w.conversations.length + 1))
      (create_new_chat w).fst.conversations = some [] := by
    rw [hc1]
    exact findVal_dictInsert_self _ _ _
  have hlen1 : (create_new_chat w).fst.conversations.length = w.conversations.length + 1 := by
    rw [hc1]
    exact length_dictInsert_fresh _ _ _ h1
  have hne12 : "Chat " ++ toString (w.conversations.length + 1) ≠
      "Chat " ++ toString (w.conversations.length + 2) := by
    intro he
    rw [← he] at h2
    rw [hfind1] at h2
    exact Option.noConfusion h2
  have hsnd2 : (create_new_chat (create_new_chat w).fst).snd =
      "Chat " ++ toString (w.conversations.length + 2) := by
    show "Chat " ++ toString ((create_new_chat w).fst.conversations.length + 1) = _
    rw [hlen1]
  have hc2 : (create_new_chat (create_new_chat w).fst).fst.conversations =
      dictInsert ("Chat " ++ toString (w.conversations.length + 2)) []
        (create_new_chat w).fst.conversations := by
    have : (create_new_chat (create_new_chat w).fst).fst.conversations =
        dictInsert ("Chat " ++ toString ((create_new_chat w).fst.conversations.length + 1)) []
          (create_new_chat w).fst.conversations := by
      simp [create_new_chat, save_chat_history]
    rw [this, hlen1]
  refine ⟨rfl, hfind1, rfl, hlen1, hsnd2, hne12, ?_, ?_, ?_⟩
  · rw [hc2, findVal_dictInsert_ne _ _ _ _ hne12]
    exact hfind1
  · rw [hc2]
    exact findVal_dictInsert_self _ _ _
  · rw [hc2, length_dictInsert_fresh _ _ _ h2, hlen1]

/-- Witness for the amended C2 starting from the empty conversation set:
two creations produce "Chat 1" and "Chat 2". -/
theorem C2_create_default_names_witness :
    (create_new_chat ⟨"m", [], none, none⟩).snd = "Chat " ++ toString (0 + 1) ∧
    findVal ("Chat " ++ toString (0 + 1))
      (create_new_chat ⟨"m", [], none, none⟩).fst.conversations = some [] ∧
    (create_new_chat ⟨"m", [], none, none⟩).fst.store =
      some (create_new_chat ⟨"m", [], none, none⟩).fst.conversations ∧
    (create_new_chat ⟨"m", [], none, none⟩).fst.conversations.length = 0 + 1 ∧
    (create_new_chat (create_new_chat ⟨"m", [], none, none⟩).fst).snd =
      "Chat " ++ toString (0 + 2) ∧
    "Chat " ++ toString (0 + 1) ≠ "Chat " ++ toString (0 + 2) ∧
    findVal ("Chat " ++ toString (0 + 1))
      (create_new_chat (create_new_chat ⟨"m", [], none, none⟩).fst).fst.conversations =
      some [] ∧
    findVal ("Chat " ++ toString (0 + 2))
      (create_new_chat (create_new_chat ⟨"m", [], none, none⟩).fst).fst.conversations =
      some [] ∧
    (create_new_chat (create_new_chat ⟨"m", [], none, none⟩).fst).fst.conversations.length =
      0 + 2 :=
  C2_create_default_names ⟨"m", [], none, none⟩ (by decide) (by decide)

/-- C9 counterexample: the pre-state satisfies the invariant (current "A"
exists), but the stored set only contains "B"; a successful load replaces
the conversation set while keeping the non-null stale pointer "A", breaking
the invariant — so not every operation preserves it. -/
theorem C9_counterexample :
    current_valid ⟨"m", [("A", [])], some "A", some [("B", [])]⟩ = true ∧
    current_valid (load_chat_history ⟨"m", [("A", [])], some "A", some [("B", [])]⟩) =
      false := by
  refine ⟨by decide, by decide⟩

/-- C9 amended: `create_new_chat`, `rename_chat` (in every non-raising
case), `delete_chat` and the `sendMessage` handler preserve the invariant
that a non-null current pointer names a present conversation; the load
establishes it when the prior pointer is null, but a non-null stale pointer
survives a load unchecked. -/
theorem C9_pointer_invariant (w wl wr ws : World) (b : Bool)
    (old_name new_name chat_name prompt reply : String) (client : Bool) (api : Api)
    (hw : current_valid w = true)
    (hr : rename_chat w old_name new_name = some (wr, b))
    (hs : sendMessage client api w prompt = some (ws, reply))
    (hl : wl.current_chat = none) :
    current_valid (create_new_chat w).fst = true ∧
    current_valid wr = true ∧
    current_valid (delete_chat w chat_name).fst = true ∧
    current_valid ws = true ∧
    current_valid (load_chat_history wl) = true :=
  ⟨create_current_valid w,
   rename_current_valid w wr old_name new_name b hw hr,
   delete_current_valid w chat_name hw,
   sendMessage_current_valid client api w ws prompt reply hs,
   load_none_current_valid wl hl⟩

/-- Witness for the amended C9 at a concrete state with a successful
rename, a degraded sendMessage, a delete of the current chat, and a load
with a null prior pointer. -/
theorem C9_pointer_invariant_witness :
    current_valid (create_new_chat ⟨"m", [("A", [])], some "A", none⟩).fst = true ∧
    current_valid (⟨"m", [("C", [])], some "C", some [("C", [])]⟩ : World) = true ∧
    current_valid (delete_chat ⟨"m", [("A", [])], some "A", none⟩ "A").fst = true ∧
    current_valid (⟨"m", [("A", [⟨"user", "hi"⟩, ⟨"assistant", clientMissingMsg⟩])],
      some "A", some [("A", [⟨"user", "hi"⟩, ⟨"assistant", clientMissingMsg⟩])]⟩ : World) =
      true ∧
    current_valid (load_chat_history ⟨"m", [], none, some [("B", [])]⟩) = true :=
  C9_pointer_invariant ⟨"m", [("A", [])], some "A", none⟩
    ⟨"m", [], none, some [("B", [])]⟩
    ⟨"m", [("C", [])], some "C", some [("C", [])]⟩
    ⟨"m", [("A", [⟨"user", "hi"⟩, ⟨"assistant", clientMissingMsg⟩])], some "A",
      some [("A", [⟨"user", "hi"⟩, ⟨"assistant", clientMissingMsg⟩])]⟩
    true "A" "C" "A" "hi" clientMissingMsg false (fun _ _ => Except.ok "unused")
    (by decide) (by decide) (by decide) rfl

end PhoenixAI
